import Mathlib

set_option maxRecDepth 8000

/-!
# Verification of the Nginx log parser & user-agent enricher

Shallow embedding of `src/Clinton_Assesment_GovtechInternship/main.py`.
Python strings are modelled as Lean `String`s (character classes such as
`str.lower`, `str.isdigit` and the regex classes `\s`, `\d` are modelled on
their ASCII behaviour, which is the behaviour exercised by access logs).
Python dicts that become JSON records are modelled as association lists in
insertion order; a key that is present with value `None` is a `JVal.null`,
while an absent key is simply missing from the list.
-/

namespace LogParser

/-! ## Basic string helpers (Python semantics) -/

/-- ASCII lower-casing of one character: models Python `str.lower` on the
ASCII range (all markers the program searches for are ASCII). -/
def lowerChar (c : Char) : Char :=
  if 'A' ≤ c ∧ c ≤ 'Z' then Char.ofNat (c.toNat + 32) else c

/-- ASCII upper-casing of one character: models Python `str.upper` on the
ASCII range. -/
def upperChar (c : Char) : Char :=
  if 'a' ≤ c ∧ c ≤ 'z' then Char.ofNat (c.toNat - 32) else c

/-- Models `s.lower()`. -/
def pyLower (s : String) : String := String.mk (s.toList.map lowerChar)

/-- Tests whether the first list is a prefix of the second. -/
def listStartsWith : List Char → List Char → Bool
  | [], _ => true
  | _ :: _, [] => false
  | a :: as, b :: bs => a == b && listStartsWith as bs

/-- Substring test (Python `in`) on lists of characters. -/
def listContains (needle : List Char) : List Char → Bool
  | [] => needle.isEmpty
  | c :: rest => listStartsWith needle (c :: rest) || listContains needle rest

/-- Python `needle in hay` on strings. -/
def strContains (hay needle : String) : Bool :=
  listContains needle.toList hay.toList

/-- Python whitespace characters (`str.split` with no argument and the
regex class `\s`, ASCII part). -/
def pyIsSpace (c : Char) : Bool :=
  c == ' ' || c == '\t' || c == '\n' || c == '\r' || c == '\x0b' || c == '\x0c'

/-- ASCII decimal digit (regex `\d`, `str.isdigit` on the ASCII range). -/
def isAsciiDigit (c : Char) : Bool := '0' ≤ c && c ≤ '9'

/-- Numeric value of a digit string (how Python `int` reads an all-digit
token). -/
def digitsToNat (l : List Char) : Nat :=
  l.foldl (fun acc c => 10 * acc + (c.toNat - 48)) 0

/-- Python `int(s)` restricted to the token shapes reachable in this
program (non-empty all-ASCII-digit strings); anything else raises, which
the embedding records as `none`. -/
def pyIntDigits (s : String) : Option Nat :=
  if s.toList ≠ [] ∧ s.toList.all isAsciiDigit then some (digitsToNat s.toList) else none

/-- Python `s.isdigit()` on the ASCII range: non-empty and all digits. -/
def pyIsDigitStr (s : String) : Bool :=
  !s.toList.isEmpty && s.toList.all isAsciiDigit

/-- Python `s.split()` (split on runs of whitespace, dropping empty
tokens): split at every whitespace character and discard the empty
chunks. -/
def pySplit (s : String) : List String :=
  ((s.toList.splitOnP pyIsSpace).filter (· ≠ [])).map String.mk

/-- Models `line.rstrip("\r\n")`: drop trailing carriage-return / newline
characters. -/
def rstripCRLF (s : String) : String :=
  String.mk ((s.toList.reverse.dropWhile (fun c => c == '\r' || c == '\n')).reverse)

/-! ## UAInfo (the dataclass `UAInfo`)

The Python dataclass holds three dicts whose values may be `None`; we
flatten them into one structure of `Option`-valued fields (`none` models
the JSON `null`). -/

structure UAInfo where
  browser_family : Option String
  browser_version : Option String
  os_family : Option String
  os_version : Option String
  device_family : Option String
  device_type : Option String
  is_mobile : Option Bool
  is_tablet : Option Bool
  is_pc : Option Bool
  is_bot : Option Bool
  deriving DecidableEq, Repr

/-- Models `UAInfo.empty()`: the all-absent shape. -/
def UAInfo.empty : UAInfo :=
  ⟨none, none, none, none, none, none, none, none, none, none⟩

/-! ## The optional `user_agents` library

`ua_parse(ua_string)` returns an object with browser/os/device fields and
four booleans. The claims treat these as arbitrary inputs, so the library
is modelled as an uninterpreted lookup function `String → LibUA`. -/

structure LibUA where
  browser_family : String
  browser_version : String
  os_family : String
  os_version : String
  device_family : String
  is_mobile : Bool
  is_tablet : Bool
  is_pc : Bool
  is_bot : Bool

/-- Python `x or None` for strings: empty string becomes `None`. -/
def strOrNone (s : String) : Option String := if s = "" then none else some s

/-! ## enrich_user_agent: library-backed branch (main.py lines 136-179) -/

def looksLikeTablet (ua_lc : String) : Bool :=
  strContains ua_lc "tablet" || strContains ua_lc "ipad" ||
  strContains ua_lc " sm-t" || strContains ua_lc "sm-t"

def libClassify (ua : LibUA) (ua_string : String) : UAInfo :=
  let info0 : UAInfo :=
    { browser_family := strOrNone ua.browser_family
      browser_version := strOrNone ua.browser_version
      os_family := strOrNone ua.os_family
      os_version := strOrNone ua.os_version
      device_family := strOrNone ua.device_family
      device_type := none
      is_mobile := some ua.is_mobile
      is_tablet := some ua.is_tablet
      is_pc := some ua.is_pc
      is_bot := some ua.is_bot }
  let dtype :=
    if ua.is_mobile then "Mobile"
    else if ua.is_tablet then "Tablet"
    else if ua.is_pc then "PC"
    else if ua.is_bot then "Bot"
    else "Other"
  let ua_lc := pyLower ua_string
  if looksLikeTablet ua_lc then
    { info0 with
      device_type := some "Tablet"
      is_tablet := some true
      is_mobile := some false
      device_family :=
        if strContains ua_lc "ipad" then some "iPad" else info0.device_family }
  else
    { info0 with device_type := some dtype }

/-! ## enrich_user_agent: heuristic fallback (main.py lines 181-256) -/

/-- Models `_guess_windows_version_from_ua` (main.py lines 116-126). -/
def guessWindowsVersion (ua_lc : String) : Option String :=
  if strContains ua_lc "windows nt 6.1" then some "7"
  else if strContains ua_lc "windows nt 6.2" then some "8"
  else if strContains ua_lc "windows nt 6.3" then some "8.1"
  else if strContains ua_lc "windows nt 10.0" then
    some (if strContains ua_lc "windows 11" then "11" else "10")
  else none

/-- Models `re.search(lit + "([cls]+)", s)`: find the leftmost position where the
literal occurs followed by at least one character of the class, and return
that (maximal) run of class characters. Models the three version-extraction
regexes, each of which is a literal followed by one greedy character
class. -/
def searchLitClass (lit : List Char) (cls : Char → Bool) : List Char → Option String
  | [] => none
  | c :: rest =>
    if listStartsWith lit (c :: rest) ∧ ((c :: rest).drop lit.length).takeWhile cls ≠ [] then
      some (String.mk (((c :: rest).drop lit.length).takeWhile cls))
    else searchLitClass lit cls rest

/-- Character class `[0-9_\.]` of the macOS version regex. -/
def macVerChar (c : Char) : Bool := isAsciiDigit c || c == '_' || c == '.'

/-- Character class `[0-9\.]` of the Android version regex. -/
def androidVerChar (c : Char) : Bool := isAsciiDigit c || c == '.'

/-- Character class `[0-9_]` of the iOS version regexes. -/
def iosVerChar (c : Char) : Bool := isAsciiDigit c || c == '_'

/-- Python `s.replace("_", ".")`. -/
def underscoresToDots (s : String) : String :=
  String.mk (s.toList.map fun c => if c == '_' then '.' else c)

/-- Models `re.search(r"cpu (?:iphone )?os ([0-9_]+)", ua_lc)`: at each position,
the optional group is tried greedily first. -/
def searchCpuOs : List Char → Option String
  | [] => none
  | c :: rest =>
    if listStartsWith "cpu iphone os ".toList (c :: rest) ∧
        ((c :: rest).drop 14).takeWhile iosVerChar ≠ [] then
      some (String.mk (((c :: rest).drop 14).takeWhile iosVerChar))
    else if listStartsWith "cpu os ".toList (c :: rest) ∧
        ((c :: rest).drop 7).takeWhile iosVerChar ≠ [] then
      some (String.mk (((c :: rest).drop 7).takeWhile iosVerChar))
    else searchCpuOs rest

/-- Browser-family block of the heuristic fallback (lines 184-194). -/
def heurBrowser (info : UAInfo) (ua_lc : String) : UAInfo :=
  if strContains ua_lc "edg/" || strContains ua_lc " edge/" || strContains ua_lc " edg " then
    { info with browser_family := some "Edge" }
  else if strContains ua_lc "opr/" || strContains ua_lc " opera" then
    { info with browser_family := some "Opera" }
  else if strContains ua_lc "chrome/" && !strContains ua_lc "edg" && !strContains ua_lc "opr" then
    { info with browser_family := some "Chrome" }
  else if strContains ua_lc "firefox/" then
    { info with browser_family := some "Firefox" }
  else if strContains ua_lc "safari/" && !strContains ua_lc "chrome" then
    { info with browser_family := some "Safari" }
  else info

/-- OS-family/version block of the heuristic fallback (lines 196-216). -/
def heurOS (info : UAInfo) (ua_lc : String) : UAInfo :=
  if strContains ua_lc "windows" then
    { info with os_family := some "Windows", os_version := guessWindowsVersion ua_lc }
  else if strContains ua_lc "mac os x" || strContains ua_lc "macintosh" then
    match searchLitClass "mac os x ".toList macVerChar ua_lc.toList with
    | some v => { info with os_family := some "macOS", os_version := some (underscoresToDots v) }
    | none => { info with os_family := some "macOS" }
  else if strContains ua_lc "android" then
    match searchLitClass "android ".toList androidVerChar ua_lc.toList with
    | some v => { info with os_family := some "Android", os_version := some v }
    | none => { info with os_family := some "Android" }
  else if strContains ua_lc "iphone" || strContains ua_lc "ipad" ||
      strContains ua_lc "cpu iphone os" || strContains ua_lc "cpu os" then
    match searchLitClass "iphone os ".toList iosVerChar ua_lc.toList with
    | some v => { info with os_family := some "iOS", os_version := some (underscoresToDots v) }
    | none =>
      match searchCpuOs ua_lc.toList with
      | some v => { info with os_family := some "iOS", os_version := some (underscoresToDots v) }
      | none => { info with os_family := some "iOS" }
  else if strContains ua_lc "linux" then
    { info with os_family := some "Linux" }
  else info

/-- Device-type block of the heuristic fallback (lines 218-254); every
branch sets the type and all four flags. -/
def heurDevice (info : UAInfo) (ua_lc : String) : UAInfo :=
  if strContains ua_lc "bot" || strContains ua_lc "spider" || strContains ua_lc "crawler" then
    { info with device_type := some "Bot", is_bot := some true, is_mobile := some false
                is_tablet := some false, is_pc := some false }
  else if strContains ua_lc "ipad" || strContains ua_lc "tablet" ||
      (strContains ua_lc "android" && strContains ua_lc "tablet") then
    { info with device_type := some "Tablet", is_tablet := some true, is_mobile := some false
                is_pc := some false, is_bot := some false
                device_family := if strContains ua_lc "ipad" then some "iPad" else none }
  else if strContains ua_lc "mobile" || strContains ua_lc "iphone" ||
      (strContains ua_lc "android" && strContains ua_lc "mobile") then
    { info with device_type := some "Mobile", is_mobile := some true, is_tablet := some false
                is_pc := some false, is_bot := some false
                device_family := if strContains ua_lc "iphone" then some "iPhone" else none }
  else if strContains ua_lc "windows" || strContains ua_lc "mac os x" ||
      strContains ua_lc "linux" then
    { info with device_type := some "PC", is_pc := some true, is_mobile := some false
                is_tablet := some false, is_bot := some false }
  else
    { info with device_type := some "Other", is_mobile := some false, is_tablet := some false
                is_pc := some false, is_bot := some false }

def heurClassify (ua_string : String) : UAInfo :=
  let ua_lc := pyLower ua_string
  heurDevice (heurOS (heurBrowser UAInfo.empty ua_lc) ua_lc) ua_lc

/-- Models `enrich_user_agent` (main.py lines 129-256). `lib` is `some f` when the
optional `user_agents` library is importable (`f` models `ua_parse`), and
`none` when the heuristic fallback is in force for the run. -/
def enrich_user_agent (lib : Option (String → LibUA)) (ua_string : String) : UAInfo :=
  if ua_string = "" then UAInfo.empty
  else
    match lib with
    | some f => libClassify (f ua_string) ua_string
    | none => heurClassify ua_string

/-! ## Timestamp handling (`parse_time_local`, main.py lines 89-95)

`datetime.strptime(s, "%d/%b/%Y:%H:%M:%S %z")` is embedded as
`strptimeNginx`.  CPython compiles the format to an anchored, full-match
regex; each directive below reproduces the corresponding sub-regex
(`%d` → `3[01]|[12]\d|0[1-9]|[1-9]` followed by the literal `/`, which
makes the alternation equivalent to "a maximal run of one or two digits
whose value is 1..31", and similarly for `%H`, `%M`, `%S`, while `%Y` is
exactly four digits and a literal space matches one or more whitespace
characters).  The `datetime` constructor then validates the calendar
fields (year ≥ 1, day ≤ length of month, second ≤ 59 — the regex itself
admits leap seconds 60/61 — and `timezone(timedelta(...))` requires the
offset to be strictly less than 24 hours in magnitude).  Fractional-second
UTC offsets (`+HHMMSS.ffffff`) are not modelled. -/

structure DT where
  year : Nat
  month : Nat
  day : Nat
  hour : Nat
  minute : Nat
  second : Nat
  gmtoff : Int
  deriving DecidableEq, Repr

def monthAbbrevNum (l : List Char) : Option Nat :=
  match String.mk (l.map lowerChar) with
  | "jan" => some 1 | "feb" => some 2 | "mar" => some 3 | "apr" => some 4
  | "may" => some 5 | "jun" => some 6 | "jul" => some 7 | "aug" => some 8
  | "sep" => some 9 | "oct" => some 10 | "nov" => some 11 | "dec" => some 12
  | _ => none

def expectChar (c : Char) : List Char → Option (List Char)
  | d :: r => if d = c then some r else none
  | [] => none

def twoDigits : List Char → Option (Nat × List Char)
  | a :: b :: r =>
    if isAsciiDigit a && isAsciiDigit b then some (digitsToNat [a, b], r) else none
  | _ => none

def skipColon : List Char → List Char
  | ':' :: r => r
  | l => l

/-- Models the `%z` sub-regex `[+-]\d\d:?[0-5]\d(:?[0-5]\d(\.\d{1,6})?)?|(?-i:Z)`,
required to reach the end of the string (CPython rejects a match that does
not consume the whole input); returns the UTC offset in seconds.
Fractional-second offsets (`.ffffff`) are not modelled. -/
def zOffset : List Char → Option Int
  | ['Z'] => some 0
  | c :: r =>
    if c = '+' ∨ c = '-' then
      match (do
        let (hh, r1) ← twoDigits r
        let (mm, r3) ← twoDigits (skipColon r1)
        guard (mm ≤ 59)
        match r3 with
        | [] => some (hh * 3600 + mm * 60)
        | _ =>
          let (ss, r5) ← twoDigits (skipColon r3)
          guard (ss ≤ 59)
          match r5 with
          | [] => some (hh * 3600 + mm * 60 + ss)
          | _ => none : Option Nat) with
      | some secs => some (if c = '-' then -(secs : Int) else (secs : Int))
      | none => none
    else none
  | [] => none

def isLeap (y : Nat) : Bool := (y % 4 == 0 && y % 100 != 0) || (y % 400 == 0)

def monthLen (leap : Bool) : Nat → Nat
  | 1 => 31 | 2 => if leap then 29 else 28 | 3 => 31 | 4 => 30 | 5 => 31 | 6 => 30
  | 7 => 31 | 8 => 31 | 9 => 30 | 10 => 31 | 11 => 30 | 12 => 31 | _ => 0

def daysInMonth (y m : Nat) : Nat := monthLen (isLeap y) m

/-- A maximal run of one or two digits whose value is at most `hi`,
followed by the literal separator `sep` (the compiled forms of `%d`, `%H`,
`%M`, `%S` and the separator that follows each). -/
def numField (hi : Nat) (sep : Char) (l : List Char) : Option (Nat × List Char) :=
  let ds := l.takeWhile isAsciiDigit
  if (ds.length = 1 || ds.length = 2) && digitsToNat ds ≤ hi then
    expectChar sep (l.dropWhile isAsciiDigit) |>.map fun r => (digitsToNat ds, r)
  else none

/-- Directive `%d` followed by `/`.  The compiled sub-regex
`3[0-1]|[1-2]\d|0[1-9]|[1-9]| [1-9]` is, in this anchored position,
equivalent to a maximal run of one or two digits with value 1..31, or a
single space followed by one digit 1..9. -/
def dayField (l : List Char) : Option (Nat × List Char) :=
  match l with
  | ' ' :: c :: rest =>
    if isAsciiDigit c && c ≠ '0' then
      expectChar '/' rest |>.map fun r => (c.toNat - 48, r)
    else none
  | _ => numField 31 '/' l

/-- Directive `%b` followed by `/`: a case-insensitive month abbreviation. -/
def monthField : List Char → Option (Nat × List Char)
  | m1 :: m2 :: m3 :: l =>
    match monthAbbrevNum [m1, m2, m3], expectChar '/' l with
    | some mo, some r => some (mo, r)
    | _, _ => none
  | _ => none

/-- Directive `%Y` followed by `:`: exactly four digits. -/
def yearField (l : List Char) : Option (Nat × List Char) :=
  let ds := l.takeWhile isAsciiDigit
  if ds.length = 4 then
    expectChar ':' (l.dropWhile isAsciiDigit) |>.map fun r => (digitsToNat ds, r)
  else none

/-- The literal space of the format, compiled to `\s+`. -/
def spaceField (l : List Char) : Option (List Char) :=
  if l.takeWhile pyIsSpace ≠ [] then some (l.dropWhile pyIsSpace) else none

/-- Models `datetime.strptime(s, "%d/%b/%Y:%H:%M:%S %z")`, including the
validation performed by the `datetime`/`timezone` constructors; `none`
models the raised `ValueError`. -/
def strptimeNginx (s : String) : Option DT :=
  match dayField s.toList with
  | none => none
  | some (day, l1) =>
    match monthField l1 with
    | none => none
    | some (mo, l2) =>
      match yearField l2 with
      | none => none
      | some (year, l3) =>
        match numField 23 ':' l3 with
        | none => none
        | some (hour, l4) =>
          match numField 59 ':' l4 with
          | none => none
          | some (minute, l5) =>
            match (l5.takeWhile isAsciiDigit, l5.dropWhile isAsciiDigit) with
            | (ss, l6) =>
              if (ss.length = 1 || ss.length = 2) && digitsToNat ss ≤ 61 then
                match spaceField l6 with
                | none => none
                | some l7 =>
                  match zOffset l7 with
                  | none => none
                  | some off =>
                    if 1 ≤ day ∧ 1 ≤ year ∧ day ≤ daysInMonth year mo ∧
                        digitsToNat ss ≤ 59 ∧ off.natAbs < 86400 then
                      some ⟨year, mo, day, hour, minute, digitsToNat ss, off⟩
                    else none
              else none

/-- Calendar successor of a (normalized) date. -/
def nextDay (y m d : Nat) : Nat × Nat × Nat :=
  if d < daysInMonth y m then (y, m, d + 1)
  else if m < 12 then (y, m + 1, 1)
  else (y + 1, 1, 1)

/-- Calendar predecessor of a (normalized) date. -/
def prevDay (y m d : Nat) : Nat × Nat × Nat :=
  if 1 < d then (y, m, d - 1)
  else if 1 < m then (y, m - 1, daysInMonth y (m - 1))
  else (y - 1, 12, 31)

structure UTCTime where
  year : Nat
  month : Nat
  day : Nat
  hour : Nat
  minute : Nat
  second : Nat
  deriving DecidableEq, Repr

/-- Day carry of the offset shift: the date moves by at most one day
because the offset is under 24 hours. -/
def utcShift (y m d : Nat) (q : Int) : Nat × Nat × Nat :=
  if q = 1 then nextDay y m d
  else if q = -1 then prevDay y m d
  else (y, m, d)

/-- Models `dt.astimezone(timezone.utc)`: shift the wall-clock time by
the negated offset; `none` models the `OverflowError` raised when the
result leaves the supported year range 1..9999. -/
def utcConvert (dt : DT) : Option UTCTime :=
  let t : Int := ((dt.hour * 3600 + dt.minute * 60 + dt.second : Nat) : Int) - dt.gmtoff
  let r : Nat := (t % 86400).toNat
  let ymd := utcShift dt.year dt.month dt.day (t / 86400)
  if 1 ≤ ymd.1 ∧ ymd.1 ≤ 9999 then
    some ⟨ymd.1, ymd.2.1, ymd.2.2, r / 3600, r % 3600 / 60, r % 60⟩
  else none

/-- Left pad with zeros (`datetime.isoformat` field rendering). -/
def zfill (w n : Nat) : String :=
  let s := toString n
  String.mk (List.replicate (w - s.length) '0') ++ s

/-- Models `dt.isoformat()` for a UTC-aware datetime with zero microseconds. -/
def renderIso (u : UTCTime) : String :=
  zfill 4 u.year ++ "-" ++ zfill 2 u.month ++ "-" ++ zfill 2 u.day ++ "T" ++
  zfill 2 u.hour ++ ":" ++ zfill 2 u.minute ++ ":" ++ zfill 2 u.second ++ "+00:00"

/-- Models `parse_time_local` (main.py lines 89-95): any exception inside the
`try` block — parse failure or overflow — yields the original string. -/
def parse_time_local (s : String) : String :=
  match strptimeNginx s with
  | none => s
  | some dt =>
    match utcConvert dt with
    | none => s
    | some u => renderIso u

/-! ## Request-line split (`parse_request`, main.py lines 98-112) -/

structure ReqParts where
  method : Option String
  path : Option String
  protocol : Option String
  deriving DecidableEq, Repr

/-- Models `tok.upper().startswith("HTTP/")`. -/
def httpPrefixCI (tok : String) : Bool :=
  listStartsWith "HTTP/".toList (tok.toList.map upperChar)

/-- Models `parse_request` (main.py lines 98-112): first token is the method,
second the path, and the protocol is the first token — scanning from the
end — that upper-cases to an `HTTP/` prefix. -/
def parse_request (req : String) : ReqParts :=
  if req = "" then ⟨none, none, none⟩
  else
    let parts := pySplit req
    ⟨parts.head?, parts[1]?, parts.reverse.find? httpPrefixCI⟩

/-! ## The combined-format regex (`COMBINED_REGEX`, main.py lines 49-59)

```
(?P<remote_addr>\S+)\s+(?P<identd>-)\s+(?P<remote_user>\S+)\s+
\[(?P<time_local>[^\]]+)\]\s+"(?P<request>[^"]*)"\s+(?P<status>\d{3})\s+
(?P<body_bytes_sent>\S+)\s+"(?P<http_referer>[^"]*)"\s+"(?P<http_user_agent>[^"]*)"
```
used with `re.match` (anchored at the start, trailing input allowed).

Every quantified piece is a greedy run over a character class that is
disjoint from whatever must follow it (`\S+` before `\s+`, `\s+` before a
non-space literal or class, `[^\]]+` before `]`, `[^"]*` before `"`, and
`\d{3}` is fixed-width), so backtracking can never produce a match that
the maximal-run reading misses: the regex is equivalent to the
deterministic scanner below. -/

structure Groups where
  remote_addr : String
  remote_user : String
  time_local : String
  request : String
  status : String
  body_bytes_sent : String
  http_referer : String
  http_user_agent : String
  deriving DecidableEq, Repr

/-- Piece `\S+`: a non-empty maximal run of non-whitespace. -/
def spanNonspace (l : List Char) : Option (List Char × List Char) :=
  match l.takeWhile (fun c => !pyIsSpace c) with
  | [] => none
  | tok => some (tok, l.dropWhile (fun c => !pyIsSpace c))

/-- Piece `\s+`: at least one whitespace character, consumed maximally. -/
def spanSpace1 (l : List Char) : Option (List Char) :=
  match l with
  | c :: rest => if pyIsSpace c then some (rest.dropWhile pyIsSpace) else none
  | [] => none

/-- Piece `"[^"]*"`: a quoted, possibly empty field. -/
def quoted (l : List Char) : Option (List Char × List Char) :=
  match expectChar '"' l with
  | none => none
  | some l1 =>
    match expectChar '"' (l1.dropWhile (fun c => c != '"')) with
    | none => none
    | some rest => some (l1.takeWhile (fun c => c != '"'), rest)

/-- Piece `\[[^\]]+\]`: the bracketed, non-empty time field. -/
def bracketTok (l : List Char) : Option (List Char × List Char) :=
  match expectChar '[' l with
  | none => none
  | some l1 =>
    match l1.takeWhile (fun c => c != ']') with
    | [] => none
    | tok =>
      match expectChar ']' (l1.dropWhile (fun c => c != ']')) with
      | none => none
      | some rest => some (tok, rest)

/-- Piece `\d{3}`: exactly three digits. -/
def digit3 (l : List Char) : Option (List Char × List Char) :=
  match l with
  | a :: b :: c :: r =>
    if isAsciiDigit a && isAsciiDigit b && isAsciiDigit c then some ([a, b, c], r)
    else none
  | _ => none

/-- Second half of the regex, from `(?P<status>\d{3})` on. -/
def combinedMatchTail (ra ru tl rq : List Char) (l10 : List Char) : Option Groups :=
  match digit3 l10 with
  | none => none
  | some (st, l11) =>
    match spanSpace1 l11 with
    | none => none
    | some l12 =>
      match spanNonspace l12 with
      | none => none
      | some (bbs, l13) =>
        match spanSpace1 l13 with
        | none => none
        | some l14 =>
          match quoted l14 with
          | none => none
          | some (ref, l15) =>
            match spanSpace1 l15 with
            | none => none
            | some l16 =>
              match quoted l16 with
              | none => none
              | some (uaStr, _) =>
                some ⟨String.mk ra, String.mk ru, String.mk tl, String.mk rq,
                      String.mk st, String.mk bbs, String.mk ref, String.mk uaStr⟩

/-- Models `COMBINED_REGEX.match(raw)`: `some` of the named groups on success. -/
def combinedMatch (s : String) : Option Groups :=
  match spanNonspace s.toList with
  | none => none
  | some (ra, l1) =>
    match spanSpace1 l1 with
    | none => none
    | some l2 =>
      match expectChar '-' l2 with
      | none => none
      | some l3 =>
        match spanSpace1 l3 with
        | none => none
        | some l4 =>
          match spanNonspace l4 with
          | none => none
          | some (ru, l5) =>
            match spanSpace1 l5 with
            | none => none
            | some l6 =>
              match bracketTok l6 with
              | none => none
              | some (tl, l7) =>
                match spanSpace1 l7 with
                | none => none
                | some l8 =>
                  match quoted l8 with
                  | none => none
                  | some (rq, l9) =>
                    match spanSpace1 l9 with
                    | none => none
                    | some l10 => combinedMatchTail ra ru tl rq l10

/-! ## One-line parser (`parse_line`, main.py lines 260-321)

The returned dict is modelled as an association list in insertion order;
`JVal.null` is a key present with value `None`, a missing key is a missing
entry.  The nested `ua` dict produced by `asdict` is carried as the
`UAInfo` value itself. -/

inductive JVal where
  | null
  | str (s : String)
  | num (n : Nat)
  | bool (b : Bool)
  | uaObj (u : UAInfo)
  deriving DecidableEq, Repr

def optStr : Option String → JVal
  | none => .null
  | some s => .str s

/-- The record built on a successful regex match (main.py lines 281-320). -/
def successRecord (lib : Option (String → LibUA)) (n : Nat) (g : Groups) :
    List (String × JVal) :=
  let status := match pyIntDigits g.status with | some v => v | none => 0
  let body_bytes :=
    if g.body_bytes_sent ≠ "" && pyIsDigitStr g.body_bytes_sent then
      digitsToNat g.body_bytes_sent.toList
    else 0
  let req := parse_request g.request
  [("line_number", .num n),
   ("parse_ok", .bool true),
   ("remote_addr", .str g.remote_addr),
   ("remote_user", if g.remote_user = "-" then .null else .str g.remote_user),
   ("time_local", .str g.time_local),
   ("time_iso_utc", .str (parse_time_local g.time_local)),
   ("request", .str g.request),
   ("method", optStr req.method),
   ("path", optStr req.path),
   ("protocol", optStr req.protocol),
   ("status", .num status),
   ("body_bytes_sent", .num body_bytes),
   ("http_referer",
    if g.http_referer = "-" ∨ g.http_referer = "" then .null else .str g.http_referer),
   ("http_user_agent", if g.http_user_agent = "" then .null else .str g.http_user_agent),
   ("ua", .uaObj (enrich_user_agent lib g.http_user_agent))]

/-- Models `parse_line(line, line_number)` (main.py lines 260-321); `lib` is the
run-wide strategy choice passed down to `enrich_user_agent`. -/
def parse_line (lib : Option (String → LibUA)) (line : String) (n : Nat) :
    List (String × JVal) × Option String :=
  let raw := rstripCRLF line
  if raw = "" then
    ([("line_number", .num n), ("parse_ok", .bool false), ("raw", .str "")],
     some "empty line")
  else
    match combinedMatch raw with
    | none =>
      ([("line_number", .num n),
        ("raw", .str raw),
        ("parse_ok", .bool false),
        ("error", .str "Line does not match Nginx combined format")],
       some "regex_mismatch")
    | some g => (successRecord lib n g, none)

/-! ## Specification-side notions used to state the claims -/

/-- Days in the months strictly before month `m` of a year with leap flag
`leap` (proleptic Gregorian calendar). -/
def daysBeforeMonth (leap : Bool) (m : Nat) : Nat :=
  (match m with
   | 1 => 0 | 2 => 31 | 3 => 59 | 4 => 90 | 5 => 120 | 6 => 151 | 7 => 181
   | 8 => 212 | 9 => 243 | 10 => 273 | 11 => 304 | 12 => 334 | _ => 365) +
  (if leap && decide (3 ≤ m) then 1 else 0)

/-- Days from 0001-01-01 to the given proleptic-Gregorian date: the
reference day count used to compare instants. -/
def daysFromCivil (y m d : Nat) : Nat :=
  365 * (y - 1) + (y - 1) / 4 - (y - 1) / 100 + (y - 1) / 400 +
  daysBeforeMonth (isLeap y) m + (d - 1)

/-- Instant (in seconds relative to 0001-01-01T00:00:00Z) denoted by a
parsed local timestamp: local clock reading minus its UTC offset. -/
def instantDT (dt : DT) : Int :=
  (daysFromCivil dt.year dt.month dt.day : Int) * 86400 +
  ((dt.hour * 3600 + dt.minute * 60 + dt.second : Nat) : Int) - dt.gmtoff

/-- Instant denoted by a UTC calendar time. -/
def instantUTC (u : UTCTime) : Int :=
  (daysFromCivil u.year u.month u.day : Int) * 86400 +
  ((u.hour * 3600 + u.minute * 60 + u.second : Nat) : Int)

/-- At most one of the four device flags is set. -/
def atMostOne (a b c d : Bool) : Bool :=
  a.toNat + b.toNat + c.toNat + d.toNat ≤ 1

/-- Label of the first true flag under the precedence
mobile > tablet > pc > bot > other. -/
def typeLabel (a b c d : Bool) : String :=
  if a then "Mobile" else if b then "Tablet" else if c then "PC"
  else if d then "Bot" else "Other"

/-- Mutual-exclusivity invariant of a classification, as the spec states
it: whenever all four flags are known, at most one is true and the device
type is the label of the true flag (or Other when none is). -/
def uaInvariant (u : UAInfo) : Prop :=
  ∀ a b c d, u.is_mobile = some a → u.is_tablet = some b →
    u.is_pc = some c → u.is_bot = some d →
    atMostOne a b c d = true ∧ u.device_type = some (typeLabel a b c d)

/-- A user-agent string is unrecognized by the heuristic fallback: its
lower-casing contains none of the substring markers the fallback tests
(browser, OS and device branches of main.py lines 184-254). -/
def heurUnrecognized (s : String) : Bool :=
  let l := pyLower s
  !(strContains l "edg/" || strContains l " edge/" || strContains l " edg " ||
    strContains l "opr/" || strContains l " opera" || strContains l "chrome/" ||
    strContains l "firefox/" || strContains l "safari/" ||
    strContains l "windows" || strContains l "mac os x" || strContains l "macintosh" ||
    strContains l "android" || strContains l "iphone" || strContains l "ipad" ||
    strContains l "cpu iphone os" || strContains l "cpu os" || strContains l "linux" ||
    strContains l "bot" || strContains l "spider" || strContains l "crawler" ||
    strContains l "tablet" || strContains l "mobile")

/-- Modelled from the spec: the shape `YYYY-MM-DDTHH:MM:SS+00:00` of "a
valid ISO-8601 UTC timestamp string", used only to state that a returned
string is not one. -/
def specIsoUtcShape (s : String) : Bool :=
  match s.toList with
  | [y1, y2, y3, y4, '-', m1, m2, '-', d1, d2, 'T',
     h1, h2, ':', mi1, mi2, ':', s1, s2, '+', '0', '0', ':', '0', '0'] =>
    [y1, y2, y3, y4, m1, m2, d1, d2, h1, h2, mi1, mi2, s1, s2].all isAsciiDigit
  | _ => false

/-! ## General list lemmas -/

theorem find?_eq_head?_filter {α : Type} (p : α → Bool) (l : List α) :
    l.find? p = (l.filter p).head? := by
  induction l with
  | nil => rfl
  | cons a l ih =>
    cases h : p a
    · rw [List.find?_cons_of_neg _ (by simp [h]), List.filter_cons_of_neg (by simp [h]), ih]
    · rw [List.find?_cons_of_pos _ h, List.filter_cons_of_pos h, List.head?_cons]

theorem find?_reverse_eq {α : Type} (p : α → Bool) (l : List α) :
    l.reverse.find? p = (l.filter p).getLast? := by
  rw [find?_eq_head?_filter, List.filter_reverse, List.head?_reverse]

/-! ## C6: request-line split -/

/-- C6: for every request string, the method is the first
whitespace-delimited token, the path is the second token (absent when
there are fewer than two), and the protocol is the last token that
case-insensitively starts with "HTTP/" (absent when none exists); all
three are absent when the request is empty.  In particular
"GET /reports Q1 HTTP/1.1" yields method "GET", path "/reports",
protocol "HTTP/1.1". -/
theorem parse_request_correct (req : String) :
    (req = "" → parse_request req = ⟨none, none, none⟩) ∧
    (req ≠ "" →
      (parse_request req).method = (pySplit req).head? ∧
      (parse_request req).path = (pySplit req)[1]? ∧
      (parse_request req).protocol = ((pySplit req).filter httpPrefixCI).getLast?) ∧
    parse_request "GET /reports Q1 HTTP/1.1" =
      ⟨some "GET", some "/reports", some "HTTP/1.1"⟩ := by
  refine ⟨fun h => by rw [parse_request, if_pos h], fun h => ?_, by decide⟩
  unfold parse_request
  rw [if_neg h]
  exact ⟨rfl, rfl, find?_reverse_eq _ _⟩

/-- Witness for C6 at the request of scenario 6. -/
theorem parse_request_correct_witness :
    (parse_request "GET /reports Q1 HTTP/1.1").method =
      (pySplit "GET /reports Q1 HTTP/1.1").head? :=
  ((parse_request_correct "GET /reports Q1 HTTP/1.1").2.1 (by decide)).1

/-! ## Lemmas about substring containment -/

theorem listStartsWith_trans {a b c : List Char}
    (h1 : listStartsWith a b = true) (h2 : listStartsWith b c = true) :
    listStartsWith a c = true := by
  induction a generalizing b c with
  | nil => rfl
  | cons x xs ih =>
    cases b with
    | nil => exact absurd h1 (by simp [listStartsWith])
    | cons y ys =>
      cases c with
      | nil => exact absurd h2 (by simp [listStartsWith])
      | cons z zs =>
        simp only [listStartsWith, Bool.and_eq_true, beq_iff_eq] at h1 h2 ⊢
        exact ⟨h1.1.trans h2.1, ih h1.2 h2.2⟩

/-- Containment is antitone in the needle: a prefix of a contained needle
is itself contained. -/
theorem listContains_mono {n₁ n₂ hay : List Char}
    (hp : listStartsWith n₁ n₂ = true) (h : listContains n₂ hay = true) :
    listContains n₁ hay = true := by
  induction hay with
  | nil =>
    simp only [listContains, List.isEmpty_iff] at h ⊢
    subst h
    cases n₁ with
    | nil => rfl
    | cons x xs => exact absurd hp (by simp [listStartsWith])
  | cons c rest ih =>
    simp only [listContains, Bool.or_eq_true] at h ⊢
    rcases h with h | h
    · exact Or.inl (listStartsWith_trans hp h)
    · exact Or.inr (ih h)

theorem strContains_mono {hay n₁ n₂ : String}
    (hp : listStartsWith n₁.toList n₂.toList = true)
    (h : strContains hay n₂ = true) : strContains hay n₁ = true :=
  listContains_mono hp h

/-! ## Preservation lemmas for the heuristic classifier blocks -/

theorem heurBrowser_preserves (info : UAInfo) (l : String) :
    (heurBrowser info l).os_family = info.os_family ∧
    (heurBrowser info l).os_version = info.os_version ∧
    (heurBrowser info l).device_family = info.device_family ∧
    (heurBrowser info l).device_type = info.device_type ∧
    (heurBrowser info l).is_mobile = info.is_mobile ∧
    (heurBrowser info l).is_tablet = info.is_tablet ∧
    (heurBrowser info l).is_pc = info.is_pc ∧
    (heurBrowser info l).is_bot = info.is_bot := by
  unfold heurBrowser
  split_ifs <;> exact ⟨rfl, rfl, rfl, rfl, rfl, rfl, rfl, rfl⟩

theorem heurOS_preserves (info : UAInfo) (l : String) :
    (heurOS info l).browser_family = info.browser_family ∧
    (heurOS info l).browser_version = info.browser_version ∧
    (heurOS info l).device_family = info.device_family ∧
    (heurOS info l).device_type = info.device_type ∧
    (heurOS info l).is_mobile = info.is_mobile ∧
    (heurOS info l).is_tablet = info.is_tablet ∧
    (heurOS info l).is_pc = info.is_pc ∧
    (heurOS info l).is_bot = info.is_bot := by
  unfold heurOS
  split_ifs <;> (try split) <;> (try split) <;>
    exact ⟨rfl, rfl, rfl, rfl, rfl, rfl, rfl, rfl⟩

/-- Every branch of the device block sets all four flags and a matching
type, so the mutual-exclusivity invariant holds whatever came before. -/
theorem heurDevice_invariant (info : UAInfo) (l : String) :
    uaInvariant (heurDevice info l) := by
  unfold heurDevice uaInvariant
  split_ifs <;> intro a b c d ha hb hc hd <;>
    simp_all [atMostOne, typeLabel]

/-- Reduction of the strategy dispatch for a nonempty string,
library-backed case. -/
theorem enrich_some_eq (f : String → LibUA) (s : String) (hs : s ≠ "") :
    enrich_user_agent (some f) s = libClassify (f s) s := by
  unfold enrich_user_agent
  rw [if_neg hs]

/-- Reduction of the strategy dispatch for a nonempty string, heuristic
case. -/
theorem enrich_none_eq (s : String) (hs : s ≠ "") :
    enrich_user_agent none s = heurClassify s := by
  unfold enrich_user_agent
  rw [if_neg hs]

/-! ## C3: totality and degraded shape of the classifier -/

/-- C3 counterexample: the heuristic strategy classifies the nonempty
unrecognized string "xyz" with device type "Other" and all four flags
false — not the all-absent shape the claim demands. -/
theorem enrich_unrecognized_not_empty :
    enrich_user_agent none "xyz" ≠ UAInfo.empty ∧
    (enrich_user_agent none "xyz").device_type = some "Other" ∧
    (enrich_user_agent none "xyz").is_mobile = some false := by
  refine ⟨?_, by decide, by decide⟩
  intro h
  have := congrArg UAInfo.device_type h
  simp [UAInfo.empty] at this
  revert this
  decide

/-- C3 (amended): the classifier is total; the empty string yields the
all-absent shape under either strategy; a nonempty string carrying none
of the heuristic markers yields, under the heuristic fallback, absent
browser/OS/device-family fields together with device type "Other" and all
four flags known false. -/
theorem enrich_degrades (lib : Option (String → LibUA)) (s : String) :
    (s = "" → enrich_user_agent lib s = UAInfo.empty) ∧
    (s ≠ "" → heurUnrecognized s = true →
      enrich_user_agent none s =
        { UAInfo.empty with
          device_type := some "Other"
          is_mobile := some false
          is_tablet := some false
          is_pc := some false
          is_bot := some false }) := by
  constructor
  · intro h
    unfold enrich_user_agent
    rw [if_pos h]
  · intro hs h
    simp only [heurUnrecognized, Bool.not_eq_true', Bool.or_eq_false_iff] at h
    obtain ⟨⟨⟨⟨⟨⟨⟨⟨⟨⟨⟨⟨⟨⟨⟨⟨⟨⟨⟨⟨⟨hEdg, hEdge⟩, hEdg2⟩, hOpr⟩, hOpera⟩, hChrome⟩,
      hFirefox⟩, hSafari⟩, hWindows⟩, hMacosx⟩, hMacintosh⟩, hAndroid⟩, hIphone⟩,
      hIpad⟩, hCpuIphone⟩, hCpuOs⟩, hLinux⟩, hBot⟩, hSpider⟩, hCrawler⟩,
      hTablet⟩, hMobile⟩ := h
    rw [enrich_none_eq s hs]
    simp only [heurClassify]
    rw [show heurBrowser UAInfo.empty (pyLower s) = UAInfo.empty by
      unfold heurBrowser
      simp [hEdg, hEdge, hEdg2, hOpr, hOpera, hChrome, hFirefox, hSafari]]
    rw [show heurOS UAInfo.empty (pyLower s) = UAInfo.empty by
      unfold heurOS
      simp [hWindows, hMacosx, hMacintosh, hAndroid, hIphone, hIpad,
            hCpuIphone, hCpuOs, hLinux]]
    unfold heurDevice
    simp [hBot, hSpider, hCrawler, hIpad, hTablet, hMobile, hIphone,
          hWindows, hMacosx, hLinux]

/-- Witness for C3 at the empty string and at the unrecognized "xyz". -/
theorem enrich_degrades_witness :
    enrich_user_agent none "" = UAInfo.empty ∧
    enrich_user_agent none "xyz" =
      { UAInfo.empty with
        device_type := some "Other"
        is_mobile := some false
        is_tablet := some false
        is_pc := some false
        is_bot := some false } :=
  ⟨(enrich_degrades none "").1 rfl,
   (enrich_degrades none "xyz").2 (by decide) (by decide)⟩

/-! ## C4: the Samsung-tablet override -/

/-- C4 counterexample: the heuristic fallback has no "sm-t" rule, so the
user agent "SM-T870 Mobile" — which contains both "SM-T870" and "Mobile"
case-insensitively — is classified Mobile, not Tablet. -/
theorem smT_mobile_heuristic_is_mobile :
    strContains (pyLower "SM-T870 Mobile") "sm-t870" = true ∧
    strContains (pyLower "SM-T870 Mobile") "mobile" = true ∧
    (enrich_user_agent none "SM-T870 Mobile").device_type = some "Mobile" ∧
    (enrich_user_agent none "SM-T870 Mobile").is_tablet = some false ∧
    (enrich_user_agent none "SM-T870 Mobile").is_mobile = some true := by
  decide

/-- C4 (amended): under the library-backed strategy the tablet override
fires on every user agent containing "SM-T870" (hence "sm-t")
case-insensitively, whatever the library returned: device type Tablet,
is_tablet true, is_mobile false. -/
theorem smT_library_is_tablet (f : String → LibUA) (s : String)
    (h : strContains (pyLower s) "sm-t870" = true) :
    (enrich_user_agent (some f) s).device_type = some "Tablet" ∧
    (enrich_user_agent (some f) s).is_tablet = some true ∧
    (enrich_user_agent (some f) s).is_mobile = some false := by
  have hs : s ≠ "" := by
    intro he
    subst he
    exact absurd h (by decide)
  have hsm : strContains (pyLower s) "sm-t" = true :=
    strContains_mono (by decide) h
  have hT : looksLikeTablet (pyLower s) = true := by
    unfold looksLikeTablet
    simp [hsm]
  rw [enrich_some_eq f s hs]
  unfold libClassify
  simp [hT]

/-- Witness for C4 at "SM-T870 Mobile" with an arbitrary fixed library
output. -/
theorem smT_library_is_tablet_witness :
    (enrich_user_agent
      (some fun _ => ⟨"", "", "", "", "", true, false, false, false⟩)
      "SM-T870 Mobile").device_type = some "Tablet" :=
  (smT_library_is_tablet (fun _ => ⟨"", "", "", "", "", true, false, false, false⟩)
    "SM-T870 Mobile" (by decide)).1

/-! ## C10: macintosh gives macOS but not PC -/

/-- A literal-plus-class search cannot succeed when the literal does not
occur in the haystack. -/
theorem searchLitClass_eq_none (lit : List Char) (cls : Char → Bool) (l : List Char)
    (h : listContains lit l = false) : searchLitClass lit cls l = none := by
  induction l with
  | nil => rfl
  | cons c rest ih =>
    simp only [listContains, Bool.or_eq_false_iff] at h
    unfold searchLitClass
    rw [if_neg]
    · exact ih h.2
    · intro hcon
      exact absurd hcon.1 (by simp [h.1])

/-- C10: under the heuristic fallback, a user agent containing
"macintosh" but not "mac os x" (case-insensitively), with no Windows,
Linux, bot, tablet or mobile markers, gets OS family "macOS" but device
type "Other" with is_pc false — the OS branch accepts "macintosh" while
the PC device branch does not test it. -/
theorem macintosh_macos_but_other (s : String)
    (h1 : strContains (pyLower s) "macintosh" = true)
    (h2 : strContains (pyLower s) "mac os x" = false)
    (h3 : strContains (pyLower s) "windows" = false)
    (h4 : strContains (pyLower s) "linux" = false)
    (h5 : strContains (pyLower s) "bot" = false)
    (h6 : strContains (pyLower s) "spider" = false)
    (h7 : strContains (pyLower s) "crawler" = false)
    (h8 : strContains (pyLower s) "ipad" = false)
    (h9 : strContains (pyLower s) "tablet" = false)
    (h10 : strContains (pyLower s) "mobile" = false)
    (h11 : strContains (pyLower s) "iphone" = false) :
    (enrich_user_agent none s).os_family = some "macOS" ∧
    (enrich_user_agent none s).device_type = some "Other" ∧
    (enrich_user_agent none s).is_pc = some false := by
  have hs : s ≠ "" := by
    intro he
    subst he
    exact absurd h1 (by decide)
  have h2l : listContains "mac os x".toList (pyLower s).toList = false := h2
  have hsearch : searchLitClass "mac os x ".toList macVerChar (pyLower s).toList = none := by
    apply searchLitClass_eq_none
    cases hc : listContains "mac os x ".toList (pyLower s).toList
    · rfl
    · exact absurd
        (@listContains_mono "mac os x".toList "mac os x ".toList
          (pyLower s).toList (by decide) hc)
        (by simpa using h2l)
  have hOS : heurOS (heurBrowser UAInfo.empty (pyLower s)) (pyLower s) =
      { heurBrowser UAInfo.empty (pyLower s) with os_family := some "macOS" } := by
    unfold heurOS
    rw [if_neg (by simp [h3]), if_pos (by simp [h1]), hsearch]
  have hDev : ∀ info : UAInfo, heurDevice info (pyLower s) =
      { info with
        device_type := some "Other"
        is_mobile := some false
        is_tablet := some false
        is_pc := some false
        is_bot := some false } := by
    intro info
    unfold heurDevice
    rw [if_neg (by simp [h5, h6, h7]), if_neg (by simp [h8, h9]),
        if_neg (by simp [h10, h11]), if_neg (by simp [h3, h2, h4])]
  rw [enrich_none_eq s hs]
  simp only [heurClassify]
  rw [hOS, hDev]
  exact ⟨rfl, rfl, rfl⟩

/-- Witness for C10 at the bare string "Macintosh". -/
theorem macintosh_macos_but_other_witness :
    (enrich_user_agent none "Macintosh").os_family = some "macOS" ∧
    (enrich_user_agent none "Macintosh").device_type = some "Other" ∧
    (enrich_user_agent none "Macintosh").is_pc = some false :=
  macintosh_macos_but_other "Macintosh" (by decide) (by decide) (by decide)
    (by decide) (by decide) (by decide) (by decide) (by decide) (by decide)
    (by decide) (by decide)

/-! ## C1: mutual exclusivity of the device flags -/

/-- C1 counterexample: with the library's booleans treated as arbitrary
inputs, a lookup answering both is_mobile and is_tablet on a string with
no tablet marker yields a classification whose four known flags contain
two trues — not at most one. -/
theorem library_flags_not_exclusive :
    (enrich_user_agent (some fun _ => ⟨"", "", "", "", "", true, true, false, false⟩)
      "x").is_mobile = some true ∧
    (enrich_user_agent (some fun _ => ⟨"", "", "", "", "", true, true, false, false⟩)
      "x").is_tablet = some true ∧
    (enrich_user_agent (some fun _ => ⟨"", "", "", "", "", true, true, false, false⟩)
      "x").is_pc = some false ∧
    (enrich_user_agent (some fun _ => ⟨"", "", "", "", "", true, true, false, false⟩)
      "x").is_bot = some false ∧
    atMostOne true true false false = false := by
  decide

/-- The library-backed classifier keeps the invariant when the library's
flags are themselves mutually exclusive and, on strings carrying a tablet
marker, neither is_pc nor is_bot is answered true. -/
theorem libClassify_invariant (ua : LibUA) (s : String)
    (h1 : atMostOne ua.is_mobile ua.is_tablet ua.is_pc ua.is_bot = true)
    (h2 : looksLikeTablet (pyLower s) = true → ua.is_pc = false ∧ ua.is_bot = false) :
    uaInvariant (libClassify ua s) := by
  obtain ⟨bf, bv, osf, osv, df, m, t, p, q⟩ := ua
  cases hT : looksLikeTablet (pyLower s)
  · intro a b c d ha hb hc hd
    simp only [libClassify, hT, Bool.false_eq_true, if_false] at ha hb hc hd ⊢
    simp only [Option.some.injEq] at ha hb hc hd
    subst ha hb hc hd
    cases m <;> cases t <;> cases p <;> cases q <;>
      simp_all [atMostOne, typeLabel]
  · obtain ⟨hp, hq⟩ := h2 hT
    subst hp hq
    intro a b c d ha hb hc hd
    simp only [libClassify, hT, if_true] at ha hb hc hd ⊢
    simp only [Option.some.injEq] at ha hb hc hd
    subst ha hb hc hd
    simp [atMostOne, typeLabel]

/-- C1 (amended): the mutual-exclusivity invariant holds for every string
under the heuristic fallback; under the library-backed strategy it holds
provided the library's four booleans have at most one true and, whenever
the string carries a tablet marker, the library answers neither is_pc nor
is_bot (the tablet override clears only is_mobile, so a true is_pc or
is_bot would survive next to the forced is_tablet). -/
theorem classify_mutually_exclusive (s : String) (f : String → LibUA)
    (h1 : atMostOne (f s).is_mobile (f s).is_tablet (f s).is_pc (f s).is_bot = true)
    (h2 : looksLikeTablet (pyLower s) = true → (f s).is_pc = false ∧ (f s).is_bot = false) :
    uaInvariant (enrich_user_agent (some f) s) ∧
    uaInvariant (enrich_user_agent none s) := by
  constructor
  · by_cases hs : s = ""
    · have he : enrich_user_agent (some f) s = UAInfo.empty := by
        unfold enrich_user_agent
        rw [if_pos hs]
      rw [he]
      intro a b c d ha _ _ _
      exact absurd ha (by simp [UAInfo.empty])
    · rw [enrich_some_eq f s hs]
      exact libClassify_invariant (f s) s h1 h2
  · by_cases hs : s = ""
    · have he : enrich_user_agent none s = UAInfo.empty := by
        unfold enrich_user_agent
        rw [if_pos hs]
      rw [he]
      intro a b c d ha _ _ _
      exact absurd ha (by simp [UAInfo.empty])
    · rw [enrich_none_eq s hs]
      simp only [heurClassify]
      exact heurDevice_invariant _ _

/-- Witness for C1 at "x" with a mobile-only library answer. -/
theorem classify_mutually_exclusive_witness :
    (enrich_user_agent
      (some fun _ => (⟨"", "", "", "", "", true, false, false, false⟩ : LibUA))
      "x").device_type = some (typeLabel true false false false) :=
  ((classify_mutually_exclusive "x"
      (fun _ => ⟨"", "", "", "", "", true, false, false, false⟩)
      (by decide) (by decide)).1 true false false false
    (by decide) (by decide) (by decide) (by decide)).2

/-! ## C2: grammar coverage of parse_line -/

/-- C2: a non-empty stripped line that matches the combined grammar
parses with parse_ok true and no failure reason; one that does not parses
with parse_ok false, the error message set, the stripped line as raw, and
failure reason regex_mismatch. -/
theorem parse_line_grammar (lib : Option (String → LibUA)) (line : String) (n : Nat)
    (hne : rstripCRLF line ≠ "") :
    (∀ g, combinedMatch (rstripCRLF line) = some g →
      (parse_line lib line n).2 = none ∧
      (parse_line lib line n).1.lookup "parse_ok" = some (.bool true)) ∧
    (combinedMatch (rstripCRLF line) = none →
      (parse_line lib line n).2 = some "regex_mismatch" ∧
      (parse_line lib line n).1.lookup "parse_ok" = some (.bool false) ∧
      (parse_line lib line n).1.lookup "raw" = some (.str (rstripCRLF line)) ∧
      (parse_line lib line n).1.lookup "error" =
        some (.str "Line does not match Nginx combined format")) := by
  constructor
  · intro g hg
    simp only [parse_line]
    rw [if_neg hne, hg]
    exact ⟨rfl, by simp [successRecord, List.lookup]⟩
  · intro hg
    simp only [parse_line]
    rw [if_neg hne, hg]
    exact ⟨rfl, by simp [List.lookup], by simp [List.lookup], by simp [List.lookup]⟩

/-- Witness for C2 on a minimal matching line and a mismatching line. -/
theorem parse_line_grammar_witness :
    (parse_line none "a - - [t] \"r\" 200 1 \"r\" \"u\"" 1).2 = none ∧
    (parse_line none "garbage" 2).2 = some "regex_mismatch" :=
  ⟨((parse_line_grammar none "a - - [t] \"r\" 200 1 \"r\" \"u\"" 1 (by decide)).1
      ⟨"a", "-", "t", "r", "200", "1", "r", "u"⟩ (by decide)).1,
   ((parse_line_grammar none "garbage" 2 (by decide)).2 (by decide)).1⟩

/-! ## C7: failed records carry no parsed fields -/

/-- C7: a record with parse_ok false contains no keys other than
line_number, parse_ok, raw and error — in particular none of the parsed
or derived fields. -/
theorem parse_line_failure_fields (lib : Option (String → LibUA)) (line : String)
    (n : Nat) (k : String)
    (hfail : (parse_line lib line n).1.lookup "parse_ok" = some (.bool false))
    (hk : ¬ k ∈ (["line_number", "parse_ok", "raw", "error"] : List String)) :
    (parse_line lib line n).1.lookup k = none := by
  have hk1 : ¬ k = "line_number" := fun h => hk (by simp [h])
  have hk2 : ¬ k = "parse_ok" := fun h => hk (by simp [h])
  have hk3 : ¬ k = "raw" := fun h => hk (by simp [h])
  have hk4 : ¬ k = "error" := fun h => hk (by simp [h])
  have e1 : (k == "line_number") = false := beq_eq_false_iff_ne.mpr hk1
  have e2 : (k == "parse_ok") = false := beq_eq_false_iff_ne.mpr hk2
  have e3 : (k == "raw") = false := beq_eq_false_iff_ne.mpr hk3
  have e4 : (k == "error") = false := beq_eq_false_iff_ne.mpr hk4
  simp only [parse_line] at hfail ⊢
  by_cases he : rstripCRLF line = ""
  · rw [if_pos he]
    simp [List.lookup, e1, e2, e3]
  · rw [if_neg he] at hfail ⊢
    cases hm : combinedMatch (rstripCRLF line)
    · simp [List.lookup, e1, e2, e3, e4]
    · rw [hm] at hfail
      exact absurd hfail (by simp [successRecord, List.lookup])

/-- Witness for C7: a regex-mismatch record has no remote_addr. -/
theorem parse_line_failure_fields_witness :
    (parse_line none "garbage" 1).1.lookup "remote_addr" = none :=
  parse_line_failure_fields none "garbage" 1 "remote_addr" (by decide) (by decide)

/-! ## C8: numeric fields of successful records -/

theorem pyIsDigitStr_ne_empty {s : String} (h : pyIsDigitStr s = true) : s ≠ "" := by
  intro he
  subst he
  exact absurd h (by decide)

/-- C8: on a successfully matched line, status is the integer value of
the status capture (0 if it were unparsable) and body_bytes_sent is the
token's value when the token is all digits and 0 otherwise — so the
placeholder "-" becomes 0 without an error. -/
theorem parse_line_numeric (lib : Option (String → LibUA)) (line : String) (n : Nat) :
    ∀ g, combinedMatch (rstripCRLF line) = some g →
      (parse_line lib line n).1.lookup "status" =
        some (.num ((pyIntDigits g.status).getD 0)) ∧
      ∃ b : Nat, (parse_line lib line n).1.lookup "body_bytes_sent" = some (.num b) ∧
        (pyIsDigitStr g.body_bytes_sent = true → b = digitsToNat g.body_bytes_sent.toList) ∧
        (pyIsDigitStr g.body_bytes_sent = false → b = 0) := by
  intro g hg
  have hne : rstripCRLF line ≠ "" := by
    intro he
    rw [he] at hg
    rw [show combinedMatch "" = none from by decide] at hg
    exact Option.noConfusion hg
  simp only [parse_line]
  rw [if_neg hne, hg]
  constructor
  · simp only [successRecord, List.lookup]
    simp
    cases pyIntDigits g.status <;> rfl
  · refine ⟨if g.body_bytes_sent ≠ "" && pyIsDigitStr g.body_bytes_sent then
        digitsToNat g.body_bytes_sent.toList else 0, ?_, ?_, ?_⟩
    · simp [successRecord, List.lookup]
    · intro hd
      rw [if_pos]
      simp [hd, pyIsDigitStr_ne_empty hd]
    · intro hd
      rw [if_neg]
      simp [hd]

/-- Witness for C8: the body token "-" yields 0 with no error. -/
theorem parse_line_numeric_witness :
    (parse_line none "a - - [t] \"r\" 200 - \"r\" \"u\"" 1).1.lookup "body_bytes_sent" =
      some (.num 0) := by
  obtain ⟨-, b, hb, -, h0⟩ := parse_line_numeric none "a - - [t] \"r\" 200 - \"r\" \"u\"" 1
    ⟨"a", "-", "t", "r", "200", "-", "r", "u"⟩ (by decide)
  rw [h0 (by decide)] at hb
  exact hb

/-! ## C9: the status capture is always three digits -/

theorem isAsciiDigit_val_le {c : Char} (h : isAsciiDigit c = true) : c.toNat - 48 ≤ 9 := by
  simp only [isAsciiDigit, Bool.and_eq_true, decide_eq_true_eq] at h
  obtain ⟨-, h2⟩ := h
  have h3 : c.val.toNat ≤ 57 := UInt32.le_def.mp (Char.le_def.mp h2)
  simp only [Char.toNat]
  omega

theorem digit3_inv {l st r : List Char} (h : digit3 l = some (st, r)) :
    st.length = 3 ∧ st.all isAsciiDigit = true := by
  rcases l with _ | ⟨a, _ | ⟨b, _ | ⟨c, rest⟩⟩⟩ <;> simp only [digit3] at h <;>
    try exact Option.noConfusion h
  split at h
  · cases h
    simp_all
  · exact Option.noConfusion h

theorem combinedMatchTail_status {ra ru tl rq l : List Char} {g : Groups}
    (h : combinedMatchTail ra ru tl rq l = some g) :
    ∃ st r, digit3 l = some (st, r) ∧ g.status = String.mk st := by
  unfold combinedMatchTail at h
  split at h
  · exact absurd h (by simp)
  · rename_i st l11 heq
    refine ⟨st, l11, heq, ?_⟩
    split at h
    · exact absurd h (by simp)
    · split at h
      · exact absurd h (by simp)
      · split at h
        · exact absurd h (by simp)
        · split at h
          · exact absurd h (by simp)
          · split at h
            · exact absurd h (by simp)
            · split at h
              · exact absurd h (by simp)
              · cases h
                rfl

theorem combinedMatch_status {s : String} {g : Groups}
    (h : combinedMatch s = some g) :
    g.status.toList.length = 3 ∧ g.status.toList.all isAsciiDigit = true := by
  unfold combinedMatch at h
  split at h
  · exact absurd h (by simp)
  · split at h
    · exact absurd h (by simp)
    · split at h
      · exact absurd h (by simp)
      · split at h
        · exact absurd h (by simp)
        · split at h
          · exact absurd h (by simp)
          · split at h
            · exact absurd h (by simp)
            · split at h
              · exact absurd h (by simp)
              · split at h
                · exact absurd h (by simp)
                · split at h
                  · exact absurd h (by simp)
                  · split at h
                    · exact absurd h (by simp)
                    · obtain ⟨st, r, hd, hst⟩ := combinedMatchTail_status h
                      obtain ⟨hlen, hdig⟩ := digit3_inv hd
                      rw [hst]
                      exact ⟨hlen, hdig⟩

/-- C9: on every line accepted by the combined regex the status capture
is exactly three ASCII digits, so the integer conversion cannot fail (the
except branch defaulting to 0 is unreachable) and the recorded status
lies between 0 and 999. -/
theorem status_always_parses (lib : Option (String → LibUA)) (line : String) (n : Nat) :
    ∀ g, combinedMatch (rstripCRLF line) = some g →
      ∃ v, pyIntDigits g.status = some v ∧ v ≤ 999 ∧
        (parse_line lib line n).1.lookup "status" = some (.num v) := by
  intro g hg
  obtain ⟨hlen, hdig⟩ := combinedMatch_status hg
  have hne : rstripCRLF line ≠ "" := by
    intro he
    rw [he] at hg
    rw [show combinedMatch "" = none from by decide] at hg
    exact Option.noConfusion hg
  have hnil : g.status.toList ≠ [] := by
    intro h0
    rw [h0] at hlen
    exact absurd hlen (by simp)
  have hv : pyIntDigits g.status = some (digitsToNat g.status.toList) := by
    unfold pyIntDigits
    rw [if_pos ⟨hnil, hdig⟩]
  refine ⟨digitsToNat g.status.toList, hv, ?_, ?_⟩
  · obtain ⟨a, b, c, habc⟩ := List.length_eq_three.mp hlen
    rw [habc] at hdig ⊢
    simp only [List.all_cons, List.all_nil, Bool.and_eq_true, Bool.and_true] at hdig
    obtain ⟨ha, hb, hc⟩ := hdig
    have va := isAsciiDigit_val_le ha
    have vb := isAsciiDigit_val_le hb
    have vc := isAsciiDigit_val_le hc
    simp only [digitsToNat, List.foldl_cons, List.foldl_nil]
    omega
  · simp only [parse_line]
    rw [if_neg hne, hg]
    simp only [successRecord, List.lookup]
    simp
    rw [hv]
    rfl

/-- Witness for C9 at a concrete matched line. -/
theorem status_always_parses_witness :
    (parse_line none "a - - [t] \"r\" 200 1 \"r\" \"u\"" 1).1.lookup "status" =
      some (.num 200) := by
  obtain ⟨v, hv, -, hlook⟩ := status_always_parses none "a - - [t] \"r\" 200 1 \"r\" \"u\"" 1
    ⟨"a", "-", "t", "r", "200", "1", "r", "u"⟩ (by decide)
  dsimp only at hv
  rw [show pyIntDigits "200" = some 200 from by decide] at hv
  rw [← Option.some.inj hv] at hlook
  exact hlook

/-! ## C5: calendar arithmetic lemmas -/

theorem daysBeforeMonth_succ : ∀ m, m < 12 → 1 ≤ m → ∀ b : Bool,
    daysBeforeMonth b (m + 1) = daysBeforeMonth b m + monthLen b m := by
  decide

theorem monthLen_ge : ∀ m, m < 13 → 1 ≤ m → ∀ b : Bool, 28 ≤ monthLen b m := by
  decide

set_option maxHeartbeats 2000000 in
theorem daysFromCivil_year_step (y : Nat) (hy : 1 ≤ y) :
    daysFromCivil (y + 1) 1 1 = daysFromCivil y 12 31 + 1 := by
  have h1a : daysBeforeMonth (isLeap (y + 1)) 1 = 0 := by
    cases isLeap (y + 1) <;> decide
  have hf : daysBeforeMonth false 12 = 334 := by decide
  have ht : daysBeforeMonth true 12 = 335 := by decide
  unfold daysFromCivil
  rw [h1a]
  simp only [Nat.add_sub_cancel]
  cases hL : isLeap y
  · rw [hf]
    have hL2 : ¬((y % 4 = 0 ∧ ¬ y % 100 = 0) ∨ y % 400 = 0) := by
      intro hcon
      have hT : isLeap y = true := by
        unfold isLeap
        rcases hcon with ⟨h4, h100⟩ | h400
        · simp [h4, h100]
        · simp [h400]
      rw [hL] at hT
      exact Bool.noConfusion hT
    omega
  · rw [ht]
    have hL2 : (y % 4 = 0 ∧ ¬ y % 100 = 0) ∨ y % 400 = 0 := by
      unfold isLeap at hL
      simp only [Bool.or_eq_true, Bool.and_eq_true, beq_iff_eq, bne_iff_ne, ne_eq] at hL
      exact hL
    omega

theorem nextDay_spec (y m d : Nat) (hy : 1 ≤ y) (hm1 : 1 ≤ m) (hm2 : m ≤ 12)
    (hd1 : 1 ≤ d) (hd2 : d ≤ daysInMonth y m) :
    daysFromCivil (nextDay y m d).1 (nextDay y m d).2.1 (nextDay y m d).2.2 =
      daysFromCivil y m d + 1 ∧
    1 ≤ (nextDay y m d).2.1 ∧ (nextDay y m d).2.1 ≤ 12 ∧
    1 ≤ (nextDay y m d).2.2 ∧
    (nextDay y m d).2.2 ≤ daysInMonth (nextDay y m d).1 (nextDay y m d).2.1 := by
  unfold nextDay
  split_ifs with h1 h2
  · dsimp only
    refine ⟨?_, hm1, hm2, by omega, by omega⟩
    unfold daysFromCivil
    omega
  · dsimp only
    have hstep := daysBeforeMonth_succ m h2 hm1 (isLeap y)
    have hpos := monthLen_ge (m + 1) (by omega) (by omega) (isLeap y)
    have hb1 : daysInMonth y m = monthLen (isLeap y) m := rfl
    have hb2 : daysInMonth y (m + 1) = monthLen (isLeap y) (m + 1) := rfl
    refine ⟨?_, by omega, by omega, by omega, by omega⟩
    unfold daysFromCivil
    omega
  · dsimp only
    have hm12 : m = 12 := by omega
    subst hm12
    have hdim : daysInMonth y 12 = 31 := rfl
    have hd31 : d = 31 := by omega
    subst hd31
    have h31 : daysInMonth (y + 1) 1 = 31 := rfl
    exact ⟨daysFromCivil_year_step y hy, by omega, by omega, by omega, by omega⟩

theorem prevDay_spec (y m d : Nat) (hy : 1 ≤ y) (hm1 : 1 ≤ m) (hm2 : m ≤ 12)
    (hd1 : 1 ≤ d) (hd2 : d ≤ daysInMonth y m) (hno : ¬(y = 1 ∧ m = 1 ∧ d = 1)) :
    daysFromCivil (prevDay y m d).1 (prevDay y m d).2.1 (prevDay y m d).2.2 + 1 =
      daysFromCivil y m d ∧
    1 ≤ (prevDay y m d).1 ∧
    1 ≤ (prevDay y m d).2.1 ∧ (prevDay y m d).2.1 ≤ 12 ∧
    1 ≤ (prevDay y m d).2.2 ∧
    (prevDay y m d).2.2 ≤ daysInMonth (prevDay y m d).1 (prevDay y m d).2.1 := by
  unfold prevDay
  split_ifs with h1 h2
  · dsimp only
    refine ⟨?_, hy, hm1, hm2, by omega, by omega⟩
    unfold daysFromCivil
    omega
  · dsimp only
    have hstep := daysBeforeMonth_succ (m - 1) (by omega) (by omega) (isLeap y)
    have hpos := monthLen_ge (m - 1) (by omega) (by omega) (isLeap y)
    have hm' : m - 1 + 1 = m := by omega
    rw [hm'] at hstep
    have hb1 : daysInMonth y (m - 1) = monthLen (isLeap y) (m - 1) := rfl
    refine ⟨?_, hy, by omega, by omega, by omega, by omega⟩
    unfold daysFromCivil
    omega
  · have hm1' : m = 1 := by omega
    have hd1' : d = 1 := by omega
    subst hm1' hd1'
    have hy2 : 2 ≤ y := by
      rcases Nat.lt_or_ge y 2 with hlt | hge
      · exact absurd ⟨by omega, rfl, rfl⟩ hno
      · exact hge
    dsimp only
    have hstep := daysFromCivil_year_step (y - 1) (by omega)
    have hy' : y - 1 + 1 = y := by omega
    rw [hy'] at hstep
    have hdim : daysInMonth (y - 1) 12 = 31 := rfl
    exact ⟨by omega, by omega, by omega, by omega, by omega, by omega⟩

theorem utcShift_spec (y m d : Nat) (q : Int) (hy : 1 ≤ y) (hm1 : 1 ≤ m)
    (hm2 : m ≤ 12) (hd1 : 1 ≤ d) (hd2 : d ≤ daysInMonth y m)
    (hq : q = -1 ∨ q = 0 ∨ q = 1)
    (hno : ¬(q = -1 ∧ y = 1 ∧ m = 1 ∧ d = 1)) :
    ((daysFromCivil (utcShift y m d q).1 (utcShift y m d q).2.1
        (utcShift y m d q).2.2 : Int) = (daysFromCivil y m d : Int) + q) ∧
    1 ≤ (utcShift y m d q).2.1 ∧ (utcShift y m d q).2.1 ≤ 12 ∧
    1 ≤ (utcShift y m d q).2.2 ∧
    (utcShift y m d q).2.2 ≤ daysInMonth (utcShift y m d q).1 (utcShift y m d q).2.1 := by
  rcases hq with rfl | rfl | rfl
  · have hxy : utcShift y m d (-1) = prevDay y m d := by
      unfold utcShift
      rw [if_neg (by norm_num), if_pos rfl]
    rw [hxy]
    have hno' : ¬(y = 1 ∧ m = 1 ∧ d = 1) := fun hc => hno ⟨rfl, hc⟩
    obtain ⟨he, -, hb1, hb2, hb3, hb4⟩ := prevDay_spec y m d hy hm1 hm2 hd1 hd2 hno'
    exact ⟨by omega, hb1, hb2, hb3, hb4⟩
  · have hxy : utcShift y m d 0 = (y, m, d) := by
      unfold utcShift
      rw [if_neg (by norm_num), if_neg (by norm_num)]
    rw [hxy]
    dsimp only
    exact ⟨by omega, hm1, hm2, hd1, hd2⟩
  · have hxy : utcShift y m d 1 = nextDay y m d := by
      unfold utcShift
      rw [if_pos rfl]
    rw [hxy]
    obtain ⟨he, hb1, hb2, hb3, hb4⟩ := nextDay_spec y m d hy hm1 hm2 hd1 hd2
    exact ⟨by omega, hb1, hb2, hb3, hb4⟩

theorem utcConvert_spec {dt : DT} {u : UTCTime}
    (hd1 : 1 ≤ dt.day) (hm1 : 1 ≤ dt.month) (hm2 : dt.month ≤ 12)
    (hdim : dt.day ≤ daysInMonth dt.year dt.month)
    (hh : dt.hour ≤ 23) (hmi : dt.minute ≤ 59) (hsec : dt.second ≤ 59)
    (hy : 1 ≤ dt.year) (hoff : dt.gmtoff.natAbs < 86400)
    (h : utcConvert dt = some u) :
    instantUTC u = instantDT dt ∧
    1 ≤ u.year ∧ u.year ≤ 9999 ∧ 1 ≤ u.month ∧ u.month ≤ 12 ∧
    1 ≤ u.day ∧ u.day ≤ daysInMonth u.year u.month ∧
    u.hour ≤ 23 ∧ u.minute ≤ 59 ∧ u.second ≤ 59 := by
  simp only [utcConvert] at h
  generalize hT : ((dt.hour * 3600 + dt.minute * 60 + dt.second : Nat) : Int) - dt.gmtoff
      = T at h
  have hsod : dt.hour * 3600 + dt.minute * 60 + dt.second ≤ 86399 := by omega
  have hTb : -86400 < T ∧ T < 172799 := by omega
  have hq : T / 86400 = -1 ∨ T / 86400 = 0 ∨ T / 86400 = 1 := by omega
  have hr1 : ((T % 86400).toNat : Int) = T - 86400 * (T / 86400) := by omega
  have hr2 : (T % 86400).toNat < 86400 := by omega
  split at h
  · rename_i hrange
    have hno : ¬(T / 86400 = -1 ∧ dt.year = 1 ∧ dt.month = 1 ∧ dt.day = 1) := by
      rintro ⟨hqq, hy1, hmm1, hdd1⟩
      rw [hqq, hy1, hmm1, hdd1] at hrange
      exact absurd hrange.1 (by decide)
    obtain ⟨heq, hb1, hb2, hb3, hb4⟩ :=
      utcShift_spec dt.year dt.month dt.day (T / 86400) hy hm1 hm2 hd1 hdim hq hno
    cases h
    refine ⟨?_, hrange.1, hrange.2, hb1, hb2, hb3, hb4,
      by dsimp only; omega, by dsimp only; omega, by dsimp only; omega⟩
    unfold instantUTC instantDT
    dsimp only
    omega
  · exact Option.noConfusion h

theorem numField_le {hi : Nat} {sep : Char} {l : List Char} {v : Nat} {r : List Char}
    (h : numField hi sep l = some (v, r)) : v ≤ hi := by
  simp only [numField] at h
  split at h
  · rename_i hcond
    simp only [Bool.and_eq_true, Bool.or_eq_true, decide_eq_true_eq] at hcond
    cases he : expectChar sep (l.dropWhile isAsciiDigit) with
    | none => rw [he] at h; exact Option.noConfusion h
    | some r2 =>
      rw [he] at h
      simp only [Option.map_some'] at h
      cases h
      exact hcond.2
  · exact Option.noConfusion h

theorem monthAbbrevNum_bounds {l : List Char} {mo : Nat}
    (h : monthAbbrevNum l = some mo) : 1 ≤ mo ∧ mo ≤ 12 := by
  unfold monthAbbrevNum at h
  split at h <;> first
    | (cases h; omega)
    | exact Option.noConfusion h

theorem monthField_bounds {l : List Char} {mo : Nat} {r : List Char}
    (h : monthField l = some (mo, r)) : 1 ≤ mo ∧ mo ≤ 12 := by
  unfold monthField at h
  split at h
  · split at h
    · rename_i hma hex
      cases h
      exact monthAbbrevNum_bounds hma
    · exact Option.noConfusion h
  · exact Option.noConfusion h

theorem strptimeNginx_bounds {s : String} {dt : DT}
    (h : strptimeNginx s = some dt) :
    1 ≤ dt.day ∧ 1 ≤ dt.month ∧ dt.month ≤ 12 ∧
    dt.day ≤ daysInMonth dt.year dt.month ∧
    dt.hour ≤ 23 ∧ dt.minute ≤ 59 ∧ dt.second ≤ 59 ∧ 1 ≤ dt.year ∧
    dt.gmtoff.natAbs < 86400 := by
  unfold strptimeNginx at h
  split at h
  · exact Option.noConfusion h
  · rename_i day l1 hday
    split at h
    · exact Option.noConfusion h
    · rename_i mo l2 hmo
      split at h
      · exact Option.noConfusion h
      · rename_i year l3 hyear
        split at h
        · exact Option.noConfusion h
        · rename_i hour l4 hhour
          split at h
          · exact Option.noConfusion h
          · rename_i minute l5 hminute
            split at h
            rename_i ss l6 hsplit
            split at h
            · split at h
              · exact Option.noConfusion h
              · rename_i l7 hsp
                split at h
                · exact Option.noConfusion h
                · rename_i off hoff
                  split at h
                  · rename_i hfinal
                    cases h
                    obtain ⟨hmo1, hmo2⟩ := monthField_bounds hmo
                    refine ⟨hfinal.1, hmo1, hmo2, hfinal.2.2.1, numField_le hhour,
                      numField_le hminute, hfinal.2.2.2.1, hfinal.2.1,
                      hfinal.2.2.2.2⟩
                  · exact Option.noConfusion h
            · exact Option.noConfusion h

/-- C5 counterexample: "01/Jan/0001:00:00:00 +0800" matches the fixed
pattern and parses, but its UTC conversion falls before year 1, so the
code returns the original string — which is not an ISO-8601 UTC
timestamp — instead of succeeding as the claim requires. -/
theorem parse_time_local_overflow :
    strptimeNginx "01/Jan/0001:00:00:00 +0800" =
      some ⟨1, 1, 1, 0, 0, 0, 28800⟩ ∧
    parse_time_local "01/Jan/0001:00:00:00 +0800" =
      "01/Jan/0001:00:00:00 +0800" ∧
    specIsoUtcShape (parse_time_local "01/Jan/0001:00:00:00 +0800") = false := by
  refine ⟨by decide, by decide, by decide⟩

/-- C5 (amended): parse_time_local is total; on an input the fixed-format
parse rejects it returns the original string unchanged; on an input that
parses, if the UTC conversion overflows the representable years 1..9999
the original string is again returned unchanged, and otherwise the result
is the ISO-8601 rendering of a valid UTC calendar time denoting exactly
the instant of the input converted to UTC. -/
theorem parse_time_local_spec (s : String) :
    (strptimeNginx s = none → parse_time_local s = s) ∧
    (∀ dt, strptimeNginx s = some dt →
      (utcConvert dt = none → parse_time_local s = s) ∧
      (∀ u, utcConvert dt = some u →
        parse_time_local s = renderIso u ∧
        instantUTC u = instantDT dt ∧
        1 ≤ u.year ∧ u.year ≤ 9999 ∧ 1 ≤ u.month ∧ u.month ≤ 12 ∧
        1 ≤ u.day ∧ u.day ≤ daysInMonth u.year u.month ∧
        u.hour ≤ 23 ∧ u.minute ≤ 59 ∧ u.second ≤ 59)) := by
  refine ⟨fun h => ?_, fun dt hdt => ⟨fun h => ?_, fun u hu => ?_⟩⟩
  · unfold parse_time_local
    rw [h]
  · unfold parse_time_local
    simp only [hdt, h]
  · unfold parse_time_local
    simp only [hdt, hu]
    obtain ⟨b1, b2, b3, b4, b5, b6, b7, b8, b9⟩ := strptimeNginx_bounds hdt
    exact ⟨trivial, utcConvert_spec b1 b2 b3 b4 b5 b6 b7 b8 b9 hu⟩

/-- Witness for C5 at the timestamp of scenario 1. -/
theorem parse_time_local_spec_witness :
    parse_time_local "12/Sep/2025:09:12:03 +0800" =
      renderIso ⟨2025, 9, 12, 1, 12, 3⟩ ∧
    instantUTC ⟨2025, 9, 12, 1, 12, 3⟩ =
      instantDT ⟨2025, 9, 12, 9, 12, 3, 28800⟩ := by
  obtain ⟨h1, h2, -⟩ := ((parse_time_local_spec "12/Sep/2025:09:12:03 +0800").2
    ⟨2025, 9, 12, 9, 12, 3, 28800⟩ (by decide)).2 ⟨2025, 9, 12, 1, 12, 3⟩ (by decide)
  exact ⟨h1, h2⟩

end LogParser
